import Mathlib

/-!
# RFTransceiver: framing, resynchronisation and repetition vote

A shallow embedding of `RFTransceiver.c` (ATMega168 UART / ASK wireless library).

* Bytes (`uint8_t`) are natural numbers; every place where the C code narrows an
  `int` expression to `uint8_t` carries an explicit `% 256`.
* The transmit side of the UART is the list of bytes written so far (oldest first);
  the receive side is the list of bytes that will arrive (oldest first).
* `ReceiveByte` blocks until a byte arrives.  On a finite input list a read of the
  empty list is the blocked call: it is rendered as `none`, and `none` propagates.
-/

namespace RFTransceiver

/-! ## Transmit side -/

/-- Source `void TransmitByte(uint8_t dataByte)`: the argument is narrowed to eight bits and
pushed to the transmit buffer. -/
def TransmitByte (dataByte : Nat) (out : List Nat) : List Nat :=
  out ++ [dataByte % 256]

/-- Line 54, `uint8_t ID_PacketByte = (ID<<3) | 0;`, narrowed to eight bits. -/
def ID_PacketByte (ID : Nat) : Nat :=
  ((ID <<< 3) ||| 0) % 256

/-- Body of the `for` loop of `SecTransmitPacket`, for loop counter `i`. -/
def transmitFrame (idPacketByte inputByte : Nat) (out : List Nat) (i : Nat) : List Nat :=
  let out := TransmitByte 0b10101010 out
  let out := TransmitByte (idPacketByte + i) out
  let out := TransmitByte inputByte out
  TransmitByte (inputByte ^^^ (idPacketByte + i)) out

/-- Source `void SecTransmitPacket(uint8_t ID, uint8_t inputByte)`:
`for (int i = 0; i < 3; i++)` over the loop body. -/
def SecTransmitPacket (ID inputByte : Nat) (out : List Nat) : List Nat :=
  (List.range 3).foldl (transmitFrame (ID_PacketByte ID) inputByte) out

/-! ## Receive side -/

/-- Source `uint8_t ReceiveByte()`: the next byte of the channel; `none` when no byte ever
arrives (the call blocks). -/
def ReceiveByte : List Nat → Option (Nat × List Nat)
  | [] => none
  | b :: rest => some (b, rest)

/-- The three-byte block `{ID, Packet#, Data}` returned by `SecReceiveDataPacket`. -/
structure Block where
  id : Nat
  packet : Nat
  data : Nat
  deriving DecidableEq, Repr

/-- Lines 88-91: the block built from the accepted buffer (`buffer[1]`, `buffer[2]`).
The buffer holds bytes, so the three stores into `uint8_t` cells narrow nothing. -/
def returnBlock (b1 b2 : Nat) : Block :=
  { id := b1 >>> 3, packet := b1 &&& 0x7, data := b2 }

/-- The `while` loop of `SecReceiveDataPacket` on the buffer `b0 b1 b2 b3`: while the
timing byte or the checksum is wrong, shift the buffer and read one more byte. -/
def shiftLoop : Nat → Nat → Nat → Nat → List Nat → Option (Block × List Nat)
  | b0, b1, b2, b3, [] =>
    if b0 ≠ 0b10101010 ∨ (b1 ^^^ b2) ≠ b3 then none
    else some (returnBlock b1 b2, [])
  | b0, b1, b2, b3, x :: rest =>
    if b0 ≠ 0b10101010 ∨ (b1 ^^^ b2) ≠ b3 then shiftLoop b1 b2 b3 x rest
    else some (returnBlock b1 b2, x :: rest)

/-- Source `uint8_t* SecReceiveDataPacket()`: fill the four-byte buffer, then run the loop.
Returns the block and the bytes left unread. -/
def SecReceiveDataPacket (s : List Nat) : Option (Block × List Nat) :=
  match ReceiveByte s with
  | none => none
  | some (b0, s0) =>
    match ReceiveByte s0 with
    | none => none
    | some (b1, s1) =>
      match ReceiveByte s1 with
      | none => none
      | some (b2, s2) =>
        match ReceiveByte s2 with
        | none => none
        | some (b3, s3) => shiftLoop b0 b1 b2 b3 s3

/-- Lines 109-113: `recData = SecReceiveDataPacket(); while (recData[0] != ID) ...`.
Every call of `SecReceiveDataPacket` consumes at least four bytes, so the number of
iterations is bounded by the length of the input; `fuel` is that bound. -/
def awaitPacket (ID : Nat) : Nat → List Nat → Option (Block × List Nat)
  | 0, _ => none
  | fuel + 1, s =>
    match SecReceiveDataPacket s with
    | none => none
    | some (recData, rest) =>
      if recData.id ≠ ID then awaitPacket ID fuel rest
      else some (recData, rest)

/-- The two arrays `didVote[3]` and `dataVotes[3]` of `ReceivePersonalPacket`. -/
structure VoteWindow where
  didVote0 : Bool
  didVote1 : Bool
  didVote2 : Bool
  dataVotes0 : Nat
  dataVotes1 : Nat
  dataVotes2 : Nat
  deriving DecidableEq, Repr

/-- Lines 103-106: both arrays cleared. -/
def clearWindow : VoteWindow :=
  { didVote0 := false, didVote1 := false, didVote2 := false,
    dataVotes0 := 0, dataVotes1 := 0, dataVotes2 := 0 }

/-- Lines 109-135: wait for a packet for this device, then the vote collation.
Returns the vote window and the bytes left unread. -/
def voteCollation (ID : Nat) (s : List Nat) : Option (VoteWindow × List Nat) :=
  match awaitPacket ID s.length s with
  | none => none
  | some (rec0, s0) =>
    -- if (recData[1] == 0)
    let step0 : Option (VoteWindow × Block × List Nat) :=
      if rec0.packet = 0 then
        match SecReceiveDataPacket s0 with
        | none => none
        | some (r, t) => some ({ clearWindow with dataVotes0 := rec0.data, didVote0 := true }, r, t)
      else some (clearWindow, rec0, s0)
    match step0 with
    | none => none
    | some (w1, rec1, s1) =>
      -- if (recData[1] == 1 && recData[0] == ID)
      let step1 : Option (VoteWindow × Block × List Nat) :=
        if rec1.packet = 1 ∧ rec1.id = ID then
          match SecReceiveDataPacket s1 with
          | none => none
          | some (r, t) => some ({ w1 with dataVotes1 := rec1.data, didVote1 := true }, r, t)
        else some (w1, rec1, s1)
      match step1 with
      | none => none
      | some (w2, rec2, s2) =>
        -- if (recData[1] == 2 && recData[0] == ID)
        if rec2.packet = 2 ∧ rec2.id = ID then
          some ({ w2 with dataVotes2 := rec2.data, didVote2 := true }, s2)
        else some (w2, s2)

/-- Lines 158-170: the value returned for a vote window. -/
def resolveVotes (w : VoteWindow) : Nat :=
  if w.didVote0 then
    if w.didVote1 && w.didVote2 then
      if w.dataVotes0 = w.dataVotes1 then w.dataVotes0
      else if w.dataVotes1 = w.dataVotes2 then w.dataVotes1
      else w.dataVotes0
    else w.dataVotes0
  else if w.didVote1 then w.dataVotes1
  else w.dataVotes2

/-- Source `uint8_t ReceivePersonalPacket(uint8_t ID)`: the returned data byte and the bytes
left unread; `none` when the call blocks on an exhausted input. -/
def ReceivePersonalPacket (ID : Nat) (s : List Nat) : Option (Nat × List Nat) :=
  match voteCollation ID s with
  | none => none
  | some (w, rest) => some (resolveVotes w, rest)

/-! ## Debug helpers -/

/-- Lines 178-179, `while (value/divisor > 0) divisor*=10;` on the `uint16_t` divisor:
the product is narrowed to sixteen bits.  `fuel` bounds the number of iterations;
`none` is an exhausted bound. -/
def growDivisor (value : Nat) : Nat → Nat → Option Nat
  | 0, _ => none
  | fuel + 1, divisor =>
    if value / divisor > 0 then growDivisor value fuel ((divisor * 10) % 65536)
    else some divisor

/-- Lines 180-183, `for (...; divisor >= 1; divisor/=10)`: one digit character per
iteration, `outputValue = 48 + (value/divisor)%10` with 48 the character zero.
`fuel` bounds the number of iterations. -/
def digitLoop (value : Nat) : Nat → Nat → List Nat → Option (List Nat)
  | 0, _, _ => none
  | fuel + 1, divisor, out =>
    if divisor ≥ 1 then
      let outputValue := (48 + (value / divisor) % 10) % 256
      digitLoop value fuel (divisor / 10) (TransmitByte outputValue out)
    else some out

/-- Source `void printUInt(uint8_t value)`: grow the divisor, print the digits from
`divisor/10` down, then carriage return (13) and line feed (10). -/
def printUInt (fuel value : Nat) (out : List Nat) : Option (List Nat) :=
  match growDivisor value fuel 10 with
  | none => none
  | some divisor =>
    match digitLoop value fuel (divisor / 10) out with
    | none => none
    | some out => some (TransmitByte 10 (TransmitByte 13 out))

/-- Lines 193-195, one round of the loop of `debugTransmit` for counter value `i`, the
chip ID being a parameter: the packet, then carriage return and line feed. -/
def debugTransmitRound (chipID : Nat) (out : List Nat) (i : Nat) : List Nat :=
  let out := SecTransmitPacket chipID i out
  let out := TransmitByte 13 out
  TransmitByte 10 out

/-! ## Vocabulary of the statements -/

/-- The wire frame `(0xAA, addrSeq, data, addrSeq XOR data)`. -/
def wireFrame (addrSeq data : Nat) : List Nat :=
  [0xAA, addrSeq, data, addrSeq ^^^ data]

/-- A vote slot as the specification sees it: empty, or holding a byte. -/
def voteSlot (didVote : Bool) (dataVote : Nat) : Option Nat :=
  if didVote then some dataVote else none

/-- The resolution policy in the words of the specification (section 4.5, step 3), on
three slots that are each empty or filled:
if slot 0 is filled: if slots 1 and 2 are both filled, slot 1 when slot1 = slot2, else
slot 0 when slot0 = slot1; otherwise slot 0.  Else if slot 1 is filled: slot 1.
Else: slot 2 (nothing defined when slot 2 is empty too). -/
def specResolution (slot0 slot1 slot2 : Option Nat) : Option Nat :=
  match slot0 with
  | some v0 =>
    match slot1, slot2 with
    | some v1, some v2 =>
      if v1 = v2 then some v1
      else if v0 = v1 then some v0
      else some v0
    | _, _ => some v0
  | none =>
    match slot1 with
    | some v1 => some v1
    | none => slot2

/-- The bytes of a sequence of valid frames, each given by its addrSeq and data bytes. -/
def framesBytes : List (Nat × Nat) → List Nat
  | [] => []
  | g :: gs => wireFrame g.1 g.2 ++ framesBytes gs

/-- The bytes on the channel after `debugTransmit`-style rounds for the data values
`ds`, in order. -/
def debugStream (chipID : Nat) (ds : List Nat) : List Nat :=
  ds.foldl (debugTransmitRound chipID) []

/-- The values returned by `n` successive calls of `ReceivePersonalPacket(ID)` (as in
the loop of `debugReceive`) and the bytes left unread; `none` if a call blocks. -/
def receiveCalls (ID : Nat) : Nat → List Nat → Option (List Nat × List Nat)
  | 0, s => some ([], s)
  | n + 1, s =>
    match ReceivePersonalPacket ID s with
    | none => none
    | some (v, rest) =>
      match receiveCalls ID n rest with
      | none => none
      | some (vs, r) => some (v :: vs, r)

/-- A transmission of three frames with the four bytes of frame `i` removed. -/
def dropFrame (i : Nat) (tx : List Nat) : List Nat :=
  tx.take (4 * i) ++ tx.drop (4 * i + 4)

/-- The four bytes at offset `k` of `bs` exist and form a valid window: sync byte `0xAA`
and checksum equal to the XOR of the two middle bytes. -/
def validAt (bs : List Nat) (k : Nat) : Prop :=
  k + 3 < bs.length ∧ bs.getD k 0 = 0xAA ∧
    bs.getD (k + 3) 0 = bs.getD (k + 1) 0 ^^^ bs.getD (k + 2) 0

instance (bs : List Nat) (k : Nat) : Decidable (validAt bs k) := by
  unfold validAt
  infer_instance

/-! ## Basic facts about the scanner -/

theorem SecReceiveDataPacket_cons4 (b0 b1 b2 b3 : Nat) (s : List Nat) :
    SecReceiveDataPacket (b0 :: b1 :: b2 :: b3 :: s) = shiftLoop b0 b1 b2 b3 s := rfl

theorem SecReceiveDataPacket_short (s : List Nat) (h : s.length < 4) :
    SecReceiveDataPacket s = none := by
  match s, h with
  | [], _ => rfl
  | [_], _ => rfl
  | [_, _], _ => rfl
  | [_, _, _], _ => rfl
  | _ :: _ :: _ :: _ :: t, h => simp at h; omega

/-- A valid frame at the head of the input is accepted at once. -/
theorem SecReceiveDataPacket_frame (a d : Nat) (rest : List Nat) :
    SecReceiveDataPacket (0xAA :: a :: d :: (a ^^^ d) :: rest) = some (returnBlock a d, rest) := by
  cases rest <;> simp [SecReceiveDataPacket_cons4, shiftLoop]

/-- A window whose first byte is not the timing byte is shifted out. -/
theorem SecReceiveDataPacket_skip (x : Nat) (s : List Nat) (hx : x ≠ 0xAA) :
    SecReceiveDataPacket (x :: s) = SecReceiveDataPacket s := by
  match s with
  | [] => rfl
  | [_] => rfl
  | [_, _] => rfl
  | [_, _, _] => simp [SecReceiveDataPacket_cons4, shiftLoop, hx, SecReceiveDataPacket_short]
  | b1 :: b2 :: b3 :: y :: t => simp [SecReceiveDataPacket_cons4, shiftLoop, hx]

/-- Whatever the loop returns, it returns after accepting a window that ends right
before the unread bytes. -/
theorem shiftLoop_accepts (s : List Nat) : ∀ (b0 b1 b2 b3 : Nat) (blk : Block) (rest : List Nat),
    shiftLoop b0 b1 b2 b3 s = some (blk, rest) →
    ∃ (pre : List Nat) (c1 c2 : Nat),
      b0 :: b1 :: b2 :: b3 :: s = pre ++ [0xAA, c1, c2, c1 ^^^ c2] ++ rest ∧
      blk = returnBlock c1 c2 := by
  induction s with
  | nil =>
    intro b0 b1 b2 b3 blk rest h
    by_cases hv : b0 ≠ 0b10101010 ∨ (b1 ^^^ b2) ≠ b3
    · simp [shiftLoop, hv] at h
    · simp only [shiftLoop, hv, if_false, Option.some.injEq, Prod.mk.injEq] at h
      simp only [not_or, not_not] at hv
      obtain ⟨h0, h3⟩ := hv
      obtain ⟨hb, hr⟩ := h
      refine ⟨[], b1, b2, ?_, hb.symm⟩
      simp [h0, h3, ← hr]
  | cons x t ih =>
    intro b0 b1 b2 b3 blk rest h
    by_cases hv : b0 ≠ 0b10101010 ∨ (b1 ^^^ b2) ≠ b3
    · simp only [shiftLoop, hv, if_true] at h
      obtain ⟨pre, c1, c2, hs, hb⟩ := ih b1 b2 b3 x blk rest h
      exact ⟨b0 :: pre, c1, c2, by simp [hs], hb⟩
    · simp only [shiftLoop, hv, if_false, Option.some.injEq, Prod.mk.injEq] at h
      simp only [not_or, not_not] at hv
      obtain ⟨h0, h3⟩ := hv
      obtain ⟨hb, hr⟩ := h
      refine ⟨[], b1, b2, ?_, hb.symm⟩
      simp [h0, h3, ← hr]

theorem SecReceiveDataPacket_accepts (s : List Nat) (blk : Block) (rest : List Nat)
    (h : SecReceiveDataPacket s = some (blk, rest)) :
    ∃ (pre : List Nat) (c1 c2 : Nat),
      s = pre ++ [0xAA, c1, c2, c1 ^^^ c2] ++ rest ∧ blk = returnBlock c1 c2 := by
  match s, h with
  | [], h => simp [SecReceiveDataPacket_short] at h
  | [_], h => simp [SecReceiveDataPacket_short] at h
  | [_, _], h => simp [SecReceiveDataPacket_short] at h
  | [_, _, _], h => simp [SecReceiveDataPacket_short] at h
  | b0 :: b1 :: b2 :: b3 :: t, h =>
    rw [SecReceiveDataPacket_cons4] at h
    exact shiftLoop_accepts t b0 b1 b2 b3 blk rest h

/-- Each call of the scanner consumes at least four bytes. -/
theorem SecReceiveDataPacket_length (s : List Nat) (blk : Block) (rest : List Nat)
    (h : SecReceiveDataPacket s = some (blk, rest)) : rest.length + 4 ≤ s.length := by
  obtain ⟨pre, c1, c2, hs, _⟩ := SecReceiveDataPacket_accepts s blk rest h
  rw [hs]
  simp only [List.length_append, List.length_cons, List.length_nil]
  omega

/-! ## The bound on the address-filter loop is never the reason for stopping -/

/-- Any two bounds that are at least the length of the input give the same result:
the loop of lines 110-113 ends because a packet for this device arrived or because
the input is exhausted, never because the bound was reached. -/
theorem awaitPacket_fuel (ID : Nat) : ∀ (n m : Nat) (s : List Nat),
    s.length ≤ n → s.length ≤ m → awaitPacket ID n s = awaitPacket ID m s := by
  intro n
  induction n with
  | zero =>
    intro m s hn _
    have hs : s = [] := List.length_eq_zero.mp (Nat.le_zero.mp hn)
    subst hs
    cases m <;> simp [awaitPacket, SecReceiveDataPacket_short]
  | succ n ih =>
    intro m s hn hm
    cases m with
    | zero =>
      have hs : s = [] := List.length_eq_zero.mp (Nat.le_zero.mp hm)
      subst hs
      simp [awaitPacket, SecReceiveDataPacket_short]
    | succ m =>
      simp only [awaitPacket]
      cases hr : SecReceiveDataPacket s with
      | none => rfl
      | some p =>
        obtain ⟨blk, rest⟩ := p
        have hl := SecReceiveDataPacket_length s blk rest hr
        by_cases hid : blk.id ≠ ID
        · show (if blk.id ≠ ID then awaitPacket ID n rest else some (blk, rest)) =
            (if blk.id ≠ ID then awaitPacket ID m rest else some (blk, rest))
          rw [if_pos hid, if_pos hid]
          exact ih m rest (by omega) (by omega)
        · show (if blk.id ≠ ID then awaitPacket ID n rest else some (blk, rest)) =
            (if blk.id ≠ ID then awaitPacket ID m rest else some (blk, rest))
          rw [if_neg hid, if_neg hid]

/-- The loop stops at the first packet whose address is `ID`. -/
theorem awaitPacket_hit (ID : Nat) (s : List Nat) (blk : Block) (rest : List Nat)
    (h : SecReceiveDataPacket s = some (blk, rest)) (hid : blk.id = ID) :
    awaitPacket ID s.length s = some (blk, rest) := by
  have hl := SecReceiveDataPacket_length s blk rest h
  obtain ⟨n, hn⟩ : ∃ n, s.length = n + 1 := ⟨s.length - 1, by omega⟩
  rw [hn]
  simp [awaitPacket, h, hid]

/-- The loop drops a packet whose address is not `ID` and goes on with the rest. -/
theorem awaitPacket_miss (ID : Nat) (s : List Nat) (blk : Block) (rest : List Nat)
    (h : SecReceiveDataPacket s = some (blk, rest)) (hid : blk.id ≠ ID) :
    awaitPacket ID s.length s = awaitPacket ID rest.length rest := by
  have hl := SecReceiveDataPacket_length s blk rest h
  obtain ⟨n, hn⟩ : ∃ n, s.length = n + 1 := ⟨s.length - 1, by omega⟩
  rw [hn]
  simp only [awaitPacket, h]
  rw [if_pos hid]
  exact awaitPacket_fuel ID n rest.length rest (by omega) (le_refl _)

/-! ## The encoder in closed form -/

/-- For a five-bit address and a loop counter below three, `ID_PacketByte + i` is
`(address << 3) | i`, fits in a byte, and splits back into address and counter. -/
theorem ID_PacketByte_add : ∀ a < 32, ∀ i < 3,
    ID_PacketByte a + i = ((a <<< 3) ||| i) ∧ ((a <<< 3) ||| i) < 256 ∧
    ((a <<< 3) ||| i) >>> 3 = a ∧ ((a <<< 3) ||| i) &&& 0x7 = i := by
  decide

theorem xor_byte_mod (x y : Nat) (hx : x < 256) (hy : y < 256) :
    (x ^^^ y) % 256 = x ^^^ y :=
  Nat.mod_eq_of_lt (Nat.xor_lt_two_pow (n := 8) hx hy)

theorem transmitFrame_eq (a d i : Nat) (out : List Nat) (ha : a < 32) (hd : d < 256)
    (hi : i < 3) :
    transmitFrame (ID_PacketByte a) d out i = out ++ wireFrame ((a <<< 3) ||| i) d := by
  obtain ⟨h1, h2, _, _⟩ := ID_PacketByte_add a ha i hi
  simp only [transmitFrame, TransmitByte, h1, Nat.mod_eq_of_lt h2, Nat.mod_eq_of_lt hd,
    Nat.xor_comm d, xor_byte_mod _ d h2 hd, wireFrame, List.append_assoc, List.cons_append,
    List.nil_append, Nat.reduceMod]

theorem SecTransmitPacket_eq (a d : Nat) (out : List Nat) (ha : a < 32) (hd : d < 256) :
    SecTransmitPacket a d out =
      out ++ (wireFrame ((a <<< 3) ||| 0) d ++ wireFrame ((a <<< 3) ||| 1) d ++
        wireFrame ((a <<< 3) ||| 2) d) := by
  show transmitFrame (ID_PacketByte a) d (transmitFrame (ID_PacketByte a) d
    (transmitFrame (ID_PacketByte a) d out 0) 1) 2 = _
  rw [transmitFrame_eq a d 0 out ha hd (by decide), transmitFrame_eq a d 1 _ ha hd (by decide),
    transmitFrame_eq a d 2 _ ha hd (by decide)]
  simp only [List.append_assoc]

/-! ## Frames on the receive side -/

theorem SecReceiveDataPacket_wireFrame (a d : Nat) (rest : List Nat) :
    SecReceiveDataPacket (wireFrame a d ++ rest) = some (returnBlock a d, rest) :=
  SecReceiveDataPacket_frame a d rest

theorem returnBlock_enc (a i d : Nat) (ha : a < 32) (hi : i < 3) :
    returnBlock ((a <<< 3) ||| i) d = { id := a, packet := i, data := d } := by
  obtain ⟨_, _, h3, h4⟩ := ID_PacketByte_add a ha i hi
  simp only [returnBlock, h3, h4]

/-! ## Claims -/

/-- C1 (round trip): for an address in 0..31 and a data byte, the encoder writes twelve
bytes, and three successive calls of `SecReceiveDataPacket` on them return
`{address, 0, data}`, `{address, 1, data}`, `{address, 2, data}` in that order, each call
consuming exactly four bytes, the last one leaving nothing unread. -/
theorem C1_round_trip (address data : Nat) (ha : address < 32) (hd : data < 256) :
    (SecTransmitPacket address data []).length = 12 ∧
    SecReceiveDataPacket (SecTransmitPacket address data []) =
      some ({ id := address, packet := 0, data := data },
        (SecTransmitPacket address data []).drop 4) ∧
    SecReceiveDataPacket ((SecTransmitPacket address data []).drop 4) =
      some ({ id := address, packet := 1, data := data },
        (SecTransmitPacket address data []).drop 8) ∧
    SecReceiveDataPacket ((SecTransmitPacket address data []).drop 8) =
      some ({ id := address, packet := 2, data := data }, []) ∧
    (SecTransmitPacket address data []).drop 12 = [] := by
  rw [SecTransmitPacket_eq address data [] ha hd]
  have e0 := returnBlock_enc address 0 data ha (by decide)
  have e1 := returnBlock_enc address 1 data ha (by decide)
  have e2 := returnBlock_enc address 2 data ha (by decide)
  refine ⟨by simp [wireFrame], ?_, ?_, ?_, by simp [wireFrame]⟩
  · have h := SecReceiveDataPacket_wireFrame ((address <<< 3) ||| 0) data
      (wireFrame ((address <<< 3) ||| 1) data ++ wireFrame ((address <<< 3) ||| 2) data)
    rw [e0] at h
    simpa [wireFrame] using h
  · have h := SecReceiveDataPacket_wireFrame ((address <<< 3) ||| 1) data
      (wireFrame ((address <<< 3) ||| 2) data)
    rw [e1] at h
    simpa [wireFrame] using h
  · have h := SecReceiveDataPacket_wireFrame ((address <<< 3) ||| 2) data []
    rw [e2] at h
    simpa [wireFrame] using h

theorem C1_round_trip_witness :
    (3 < 32 ∧ 42 < 256) ∧
    SecReceiveDataPacket ((SecTransmitPacket 3 42 []).drop 4) =
      some ({ id := 3, packet := 1, data := 42 }, (SecTransmitPacket 3 42 []).drop 8) :=
  ⟨by decide, (C1_round_trip 3 42 (by decide) (by decide)).2.2.1⟩

/-- C2 (end-to-end delivery): for an address `A` in 0..31, a data byte `d` and any
following bytes `rest`, `ReceivePersonalPacket(A)` on the bytes written by
`SecTransmitPacket(A, d)` followed by `rest` returns `d` and leaves exactly `rest`
unread. -/
theorem C2_end_to_end (A d : Nat) (rest : List Nat) (hA : A < 32) (hd : d < 256) :
    ReceivePersonalPacket A (SecTransmitPacket A d [] ++ rest) = some (d, rest) := by
  rw [SecTransmitPacket_eq A d [] hA hd]
  simp only [List.nil_append, List.append_assoc]
  have e0 := returnBlock_enc A 0 d hA (by decide)
  have e1 := returnBlock_enc A 1 d hA (by decide)
  have e2 := returnBlock_enc A 2 d hA (by decide)
  have h0 := SecReceiveDataPacket_wireFrame ((A <<< 3) ||| 0) d
    (wireFrame ((A <<< 3) ||| 1) d ++ (wireFrame ((A <<< 3) ||| 2) d ++ rest))
  have h1 := SecReceiveDataPacket_wireFrame ((A <<< 3) ||| 1) d
    (wireFrame ((A <<< 3) ||| 2) d ++ rest)
  have h2 := SecReceiveDataPacket_wireFrame ((A <<< 3) ||| 2) d rest
  rw [e0] at h0
  rw [e1] at h1
  rw [e2] at h2
  have hw := awaitPacket_hit A _ _ _ h0 rfl
  simp only [ReceivePersonalPacket, voteCollation, hw]
  simp [h1, h2, resolveVotes, clearWindow]

theorem C2_end_to_end_witness :
    (3 < 32 ∧ 42 < 256) ∧
    ReceivePersonalPacket 3 (SecTransmitPacket 3 42 [] ++ [7, 0xAA]) = some (42, [7, 0xAA]) :=
  ⟨by decide, C2_end_to_end 3 42 [7, 0xAA] (by decide) (by decide)⟩

/-- C3 (encoder output): for an address in 0..31 and a data byte, `SecTransmitPacket`
appends exactly twelve bytes to the transmit buffer (one per `TransmitByte` call), which
are, for `i = 0, 1, 2`: `0xAA`, `(address<<3)|i`, `data`, `((address<<3)|i) XOR data`;
`ID_PacketByte + i` equals `(address<<3)|i`, every transmitted value fits in eight bits,
and address 3 with data 42 gives the frames of the example. -/
theorem C3_encoder_output (address data : Nat) (out : List Nat)
    (ha : address < 32) (hd : data < 256) :
    SecTransmitPacket address data out = out ++
      [0xAA, (address <<< 3) ||| 0, data, ((address <<< 3) ||| 0) ^^^ data,
       0xAA, (address <<< 3) ||| 1, data, ((address <<< 3) ||| 1) ^^^ data,
       0xAA, (address <<< 3) ||| 2, data, ((address <<< 3) ||| 2) ^^^ data] ∧
    (SecTransmitPacket address data out).length = out.length + 12 ∧
    (∀ i < 3, ID_PacketByte address + i = ((address <<< 3) ||| i) ∧
      ((address <<< 3) ||| i) < 256 ∧ (((address <<< 3) ||| i) ^^^ data) < 256) ∧
    SecTransmitPacket 3 42 [] =
      [0xAA, 0x18, 42, 0x18 ^^^ 42, 0xAA, 0x19, 42, 0x19 ^^^ 42,
       0xAA, 0x1A, 42, 0x1A ^^^ 42] := by
  refine ⟨?_, ?_, ?_, by decide⟩
  · rw [SecTransmitPacket_eq address data out ha hd]
    simp [wireFrame]
  · rw [SecTransmitPacket_eq address data out ha hd]
    simp [wireFrame]
  · intro i hi
    obtain ⟨h1, h2, _, _⟩ := ID_PacketByte_add address ha i hi
    exact ⟨h1, h2, Nat.xor_lt_two_pow (n := 8) h2 hd⟩

theorem C3_encoder_output_witness :
    (3 < 32 ∧ 42 < 256) ∧
    SecTransmitPacket 3 42 [5] = [5] ++
      [0xAA, (3 <<< 3) ||| 0, 42, ((3 <<< 3) ||| 0) ^^^ 42,
       0xAA, (3 <<< 3) ||| 1, 42, ((3 <<< 3) ||| 1) ^^^ 42,
       0xAA, (3 <<< 3) ||| 2, 42, ((3 <<< 3) ||| 2) ^^^ 42] :=
  ⟨by decide, (C3_encoder_output 3 42 [5] (by decide) (by decide)).1⟩

/-- C4 (resync): for noise bytes `pre` none of which is the sync marker `0xAA`, a valid
frame `[0xAA, a, d, a XOR d]` and any following bytes `rest`, `SecReceiveDataPacket` on
`pre ++ frame ++ rest` returns `{a >> 3, a & 7, d}` and leaves exactly `rest` unread, so
it consumed the `length pre + 4` bytes before `rest`.  On `[0x00, 0xAA, 0x18, 42, 50]`
it returns `{3, 0, 42}` with nothing left. -/
theorem C4_resync (pre : List Nat) (a d : Nat) (rest : List Nat)
    (hpre : ∀ b ∈ pre, b ≠ 0xAA) :
    SecReceiveDataPacket (pre ++ [0xAA, a, d, a ^^^ d] ++ rest) =
      some ({ id := a >>> 3, packet := a &&& 0x7, data := d }, rest) ∧
    (pre ++ [0xAA, a, d, a ^^^ d] ++ rest).length - rest.length = pre.length + 4 ∧
    SecReceiveDataPacket [0x00, 0xAA, 0x18, 42, 50] =
      some ({ id := 3, packet := 0, data := 42 }, []) := by
  refine ⟨?_, ?_, by decide⟩
  · induction pre with
    | nil => exact SecReceiveDataPacket_frame a d rest
    | cons x t ih =>
      have hx : x ≠ 0xAA := hpre x (List.mem_cons_self x t)
      have ht : ∀ b ∈ t, b ≠ 0xAA := fun b hb => hpre b (List.mem_cons_of_mem x hb)
      have hskip := SecReceiveDataPacket_skip x (t ++ [0xAA, a, d, a ^^^ d] ++ rest) hx
      simp only [List.cons_append] at hskip ⊢
      rw [hskip]
      exact ih ht
  · simp only [List.length_append, List.length_cons, List.length_nil]
    omega

theorem C4_resync_witness :
    (∀ b ∈ [0x00, 0x55, 0xAB], b ≠ 0xAA) ∧
    SecReceiveDataPacket ([0x00, 0x55, 0xAB] ++ [0xAA, 0x18, 42, 0x18 ^^^ 42] ++ [9]) =
      some ({ id := 0x18 >>> 3, packet := 0x18 &&& 0x7, data := 42 }, [9]) :=
  ⟨by decide, (C4_resync [0x00, 0x55, 0xAB] 0x18 42 [9] (by decide)).1⟩

/-- C5 (checksum invariant): whenever `SecReceiveDataPacket` returns on an input, the
last four bytes it consumed, `b0 b1 b2 b3`, satisfy `b0 = 0xAA` and `b3 = b1 XOR b2`,
and the returned block is `{b1 >> 3, b1 & 7, b2}`. -/
theorem C5_checksum_invariant (s : List Nat) (blk : Block) (rest : List Nat)
    (h : SecReceiveDataPacket s = some (blk, rest)) :
    ∃ (pre : List Nat) (b0 b1 b2 b3 : Nat),
      s = pre ++ [b0, b1, b2, b3] ++ rest ∧ b0 = 0xAA ∧ b3 = b1 ^^^ b2 ∧
      blk = { id := b1 >>> 3, packet := b1 &&& 0x7, data := b2 } := by
  obtain ⟨pre, c1, c2, hs, hb⟩ := SecReceiveDataPacket_accepts s blk rest h
  exact ⟨pre, 0xAA, c1, c2, c1 ^^^ c2, hs, rfl, rfl, hb⟩

theorem C5_checksum_invariant_witness :
    SecReceiveDataPacket [0x00, 0xAA, 0x18, 42, 50, 7] =
      some ({ id := 3, packet := 0, data := 42 }, [7]) ∧
    ∃ (pre : List Nat) (b0 b1 b2 b3 : Nat),
      [0x00, 0xAA, 0x18, 42, 50, 7] = pre ++ [b0, b1, b2, b3] ++ [7] ∧ b0 = 0xAA ∧
      b3 = b1 ^^^ b2 ∧
      ({ id := 3, packet := 0, data := 42 } : Block) =
        { id := b1 >>> 3, packet := b1 &&& 0x7, data := b2 } :=
  ⟨by decide, C5_checksum_invariant [0x00, 0xAA, 0x18, 42, 50, 7]
    { id := 3, packet := 0, data := 42 } [7] (by decide)⟩

set_option maxRecDepth 100000 in
/-- The split of a byte into its high five and low three bits loses nothing. -/
theorem byte_split : ∀ b < 256, b >>> 3 < 32 ∧ (((b >>> 3) <<< 3) ||| (b &&& 0x7)) = b := by
  decide

/-- C6 (decoder): for an accepted frame with addrSeq byte `b` and data byte `d`, the
returned block has address `b >> 3`, sequence `b & 0x7` and data `d`; the address is in
0..31 and `(address << 3) | sequence = b`. -/
theorem C6_decoder (b d : Nat) (rest : List Nat) (hb : b < 256) :
    ∃ blk : Block,
      SecReceiveDataPacket ([0xAA, b, d, b ^^^ d] ++ rest) = some (blk, rest) ∧
      blk.id = b >>> 3 ∧ blk.packet = b &&& 0x7 ∧ blk.data = d ∧
      blk.id < 32 ∧ ((blk.id <<< 3) ||| blk.packet) = b := by
  refine ⟨returnBlock b d, SecReceiveDataPacket_frame b d rest, rfl, rfl, rfl, ?_, ?_⟩
  · exact (byte_split b hb).1
  · exact (byte_split b hb).2

theorem C6_decoder_witness :
    0x1A < 256 ∧
    ∃ blk : Block,
      SecReceiveDataPacket ([0xAA, 0x1A, 42, 0x1A ^^^ 42] ++ [1]) = some (blk, [1]) ∧
      blk.id = 0x1A >>> 3 ∧ blk.packet = 0x1A &&& 0x7 ∧ blk.data = 42 ∧
      blk.id < 32 ∧ ((blk.id <<< 3) ||| blk.packet) = 0x1A :=
  ⟨by decide, C6_decoder 0x1A 42 [1] (by decide)⟩

/-- C7 (resolution policy equivalence): for every vote window with at least one slot
filled, the value returned by the resolution step of `ReceivePersonalPacket` (slot0 = slot1
tested first, then slot1 = slot2) is the value of the policy as the specification words
it (slot1 = slot2 tested first).  A window with only slot 0 = 7 resolves to 7, only
slot 1 = 4 to 4, only slot 2 = 3 to 3. -/
theorem C7_resolution_policy (w : VoteWindow)
    (hfilled : w.didVote0 = true ∨ w.didVote1 = true ∨ w.didVote2 = true) :
    specResolution (voteSlot w.didVote0 w.dataVotes0) (voteSlot w.didVote1 w.dataVotes1)
        (voteSlot w.didVote2 w.dataVotes2) = some (resolveVotes w) ∧
    resolveVotes { clearWindow with didVote0 := true, dataVotes0 := 7 } = 7 ∧
    resolveVotes { clearWindow with didVote1 := true, dataVotes1 := 4 } = 4 ∧
    resolveVotes { clearWindow with didVote2 := true, dataVotes2 := 3 } = 3 := by
  refine ⟨?_, by decide, by decide, by decide⟩
  obtain ⟨d0, d1, d2, v0, v1, v2⟩ := w
  simp only at hfilled
  cases d0 <;> cases d1 <;> cases d2 <;>
    simp [specResolution, voteSlot, resolveVotes] at hfilled ⊢
  by_cases h12 : v1 = v2
  · subst h12
    by_cases h01 : v0 = v1
    · simp [h01]
    · simp [h01]
  · by_cases h01 : v0 = v1
    · simp [h12, h01]
    · simp [h12, h01]

theorem C7_resolution_policy_witness :
    ((true = true ∨ true = true ∨ true = true) ∧
    specResolution (voteSlot true 5) (voteSlot true 9) (voteSlot true 9) =
      some (resolveVotes ⟨true, true, true, 5, 9, 9⟩)) ∧
    resolveVotes ⟨true, true, true, 5, 9, 9⟩ = 9 :=
  ⟨⟨by decide, (C7_resolution_policy ⟨true, true, true, 5, 9, 9⟩ (by decide)).1⟩, by decide⟩

/-- C8 (majority vote): for a window with all three slots filled with `x`, `y`, `z`, if
at least two of them are equal the resolution step returns a value held by at least two
slots (also when `x = z ≠ y`); if they are pairwise distinct it returns `x`.
`(5,5,9)` resolves to 5 and `(5,9,9)` to 9. -/
theorem C8_majority_vote (x y z : Nat) :
    ((x = y ∨ y = z ∨ x = z) →
      2 ≤ [x, y, z].count (resolveVotes ⟨true, true, true, x, y, z⟩)) ∧
    ((x ≠ y ∧ y ≠ z ∧ x ≠ z) → resolveVotes ⟨true, true, true, x, y, z⟩ = x) ∧
    resolveVotes ⟨true, true, true, 5, 5, 9⟩ = 5 ∧
    resolveVotes ⟨true, true, true, 5, 9, 9⟩ = 9 := by
  refine ⟨?_, ?_, by decide, by decide⟩
  · intro h
    by_cases hxy : x = y
    · subst hxy
      have hr : resolveVotes ⟨true, true, true, x, x, z⟩ = x := by simp [resolveVotes]
      rw [hr]
      simp [List.count_cons]
    · by_cases hyz : y = z
      · subst hyz
        have hr : resolveVotes ⟨true, true, true, x, y, y⟩ = y := by simp [resolveVotes, hxy]
        rw [hr]
        simp [List.count_cons]
      · have hxz : x = z := by
          rcases h with h | h | h
          · exact absurd h hxy
          · exact absurd h hyz
          · exact h
        subst hxz
        have hr : resolveVotes ⟨true, true, true, x, y, x⟩ = x := by
          simp [resolveVotes, hxy, hyz]
        rw [hr]
        simp [List.count_cons]
  · rintro ⟨hxy, hyz, _⟩
    simp [resolveVotes, hxy, hyz]

theorem C8_majority_vote_witness :
    ((6 = 9 ∨ 9 = 6 ∨ 6 = 6) ∧
      2 ≤ [6, 9, 6].count (resolveVotes ⟨true, true, true, 6, 9, 6⟩)) ∧
    ((1 ≠ 2 ∧ 2 ≠ 3 ∧ 1 ≠ 3) ∧ resolveVotes ⟨true, true, true, 1, 2, 3⟩ = 1) :=
  ⟨⟨by decide, (C8_majority_vote 6 9 6).1 (by decide)⟩,
    ⟨by decide, (C8_majority_vote 1 2 3).2.1 (by decide)⟩⟩

/-- Frames for other devices ahead of the input do not change what the address-filter
loop finds. -/
theorem awaitPacket_framesBytes (ID : Nat) (gs : List (Nat × Nat)) (s : List Nat)
    (hgs : ∀ g ∈ gs, g.1 >>> 3 ≠ ID) :
    awaitPacket ID (framesBytes gs ++ s).length (framesBytes gs ++ s) =
      awaitPacket ID s.length s := by
  induction gs with
  | nil => rfl
  | cons g t ih =>
    have hg : g.1 >>> 3 ≠ ID := hgs g (List.mem_cons_self g t)
    have ht : ∀ g ∈ t, g.1 >>> 3 ≠ ID := fun x hx => hgs x (List.mem_cons_of_mem g hx)
    have hrecv := SecReceiveDataPacket_wireFrame g.1 g.2 (framesBytes t ++ s)
    have hmiss := awaitPacket_miss ID _ _ _ hrecv hg
    simp only [framesBytes, List.append_assoc] at hmiss ⊢
    rw [hmiss]
    exact ih ht

/-- C9 (address filtering): for every local `ID`, every sequence `gs` of valid frames
whose decoded address `addrSeq >> 3` differs from `ID`, and every byte stream `s`,
`ReceivePersonalPacket(ID)` on the bytes of `gs` followed by `s` returns the same value
and leaves the same unread remainder (or blocks just the same) as on `s` alone. -/
theorem C9_address_filtering (ID : Nat) (gs : List (Nat × Nat)) (s : List Nat)
    (hgs : ∀ g ∈ gs, g.1 >>> 3 ≠ ID) :
    ReceivePersonalPacket ID (framesBytes gs ++ s) = ReceivePersonalPacket ID s := by
  simp only [ReceivePersonalPacket, voteCollation, awaitPacket_framesBytes ID gs s hgs]

theorem C9_address_filtering_witness :
    (∀ g ∈ [(0x28, 9), (0x11, 200)], g.1 >>> 3 ≠ 3) ∧
    ReceivePersonalPacket 3 (framesBytes [(0x28, 9), (0x11, 200)] ++
        [0xAA, 0x18, 42, 50, 0xAA, 0x19, 42, 51, 0xAA, 0x1A, 42, 48, 1]) =
      ReceivePersonalPacket 3 [0xAA, 0x18, 42, 50, 0xAA, 0x19, 42, 51, 0xAA, 0x1A, 42, 48, 1] :=
  ⟨by decide, C9_address_filtering 3 [(0x28, 9), (0x11, 200)] _ (by decide)⟩

/-- C10 (slot-0 fallback on a broken window): for a local `ID` in 0..31, any data `d`,
a valid frame `g = [0xAA, a, e, a XOR e]` whose decoded (address, sequence) is not
`(ID, 1)`, and any following bytes `rest`, `ReceivePersonalPacket(ID)` on
`[0xAA, ID<<3, d, (ID<<3) XOR d] ++ g ++ rest` returns `d` and leaves exactly `rest`
unread: eight bytes are consumed and `g` is gone.  `{3,0,7}` followed by a frame for
address 5 resolves to 7. -/
theorem C10_slot0_fallback (ID d a e : Nat) (rest : List Nat) (hID : ID < 32)
    (hg : ¬ (a >>> 3 = ID ∧ a &&& 0x7 = 1)) :
    ReceivePersonalPacket ID
        ([0xAA, ID <<< 3, d, (ID <<< 3) ^^^ d] ++ [0xAA, a, e, a ^^^ e] ++ rest) =
      some (d, rest) ∧
    ([0xAA, ID <<< 3, d, (ID <<< 3) ^^^ d] ++ [0xAA, a, e, a ^^^ e] ++ rest).length
      - rest.length = 8 ∧
    ReceivePersonalPacket 3 ([0xAA, 3 <<< 3, 7, (3 <<< 3) ^^^ 7] ++
      [0xAA, 5 <<< 3, 9, (5 <<< 3) ^^^ 9]) = some (7, []) := by
  refine ⟨?_, ?_, by decide⟩
  · have e0 := returnBlock_enc ID 0 d hID (by decide)
    rw [Nat.or_zero] at e0
    have h0 := SecReceiveDataPacket_frame (ID <<< 3) d ([0xAA, a, e, a ^^^ e] ++ rest)
    have h1 := SecReceiveDataPacket_frame a e rest
    rw [e0] at h0
    have hw := awaitPacket_hit ID _ _ _ h0 rfl
    simp only [List.cons_append, List.nil_append, List.append_assoc] at hw h0 h1 ⊢
    simp only [ReceivePersonalPacket, voteCollation, hw]
    have hg1 : ¬ ((returnBlock a e).packet = 1 ∧ (returnBlock a e).id = ID) := by
      intro h
      exact hg ⟨h.2, h.1⟩
    by_cases h2 : (returnBlock a e).packet = 2 ∧ (returnBlock a e).id = ID
    · simp [h1, hg1, h2, resolveVotes, clearWindow]
    · simp [h1, hg1, h2, resolveVotes, clearWindow]
  · simp only [List.length_append, List.length_cons, List.length_nil]
    omega

theorem C10_slot0_fallback_witness :
    (3 < 32 ∧ ¬ (0x1A >>> 3 = 3 ∧ 0x1A &&& 0x7 = 1)) ∧
    ReceivePersonalPacket 3
        ([0xAA, 3 <<< 3, 7, (3 <<< 3) ^^^ 7] ++ [0xAA, 0x1A, 8, 0x1A ^^^ 8] ++ [0xAA, 1]) =
      some (7, [0xAA, 1]) :=
  ⟨by decide, (C10_slot0_fallback 3 7 0x1A 8 [0xAA, 1] (by decide) (by decide)).1⟩

/-! ## Collation on sequences of frames -/

/-- Noise without the sync byte in front of a valid frame is shifted out. -/
theorem SecReceiveDataPacket_noise (pre : List Nat) (a d : Nat) (rest : List Nat)
    (hpre : ∀ b ∈ pre, b ≠ 0xAA) :
    SecReceiveDataPacket (pre ++ (wireFrame a d ++ rest)) = some (returnBlock a d, rest) := by
  induction pre with
  | nil => exact SecReceiveDataPacket_wireFrame a d rest
  | cons x t ih =>
    have hx : x ≠ 0xAA := hpre x (List.mem_cons_self x t)
    have ht : ∀ b ∈ t, b ≠ 0xAA := fun b hb => hpre b (List.mem_cons_of_mem x hb)
    rw [List.cons_append, SecReceiveDataPacket_skip x _ hx]
    exact ih ht

/-- The address-filter loop stops at a first frame that carries the local address. -/
theorem awaitPacket_start (ID a d : Nat) (pre rest : List Nat)
    (hpre : ∀ b ∈ pre, b ≠ 0xAA) (ha : a >>> 3 = ID) :
    awaitPacket ID (pre ++ (wireFrame a d ++ rest)).length (pre ++ (wireFrame a d ++ rest)) =
      some (returnBlock a d, rest) :=
  awaitPacket_hit ID _ _ _ (SecReceiveDataPacket_noise pre a d rest hpre) ha

/-- Frames with sequence 0, 1, 2 for the local address fill the three slots. -/
theorem voteCollation_full (ID a0 a1 a2 x y z : Nat) (pre rest : List Nat)
    (hpre : ∀ b ∈ pre, b ≠ 0xAA)
    (h0 : a0 >>> 3 = ID ∧ a0 &&& 0x7 = 0) (h1 : a1 >>> 3 = ID ∧ a1 &&& 0x7 = 1)
    (h2 : a2 >>> 3 = ID ∧ a2 &&& 0x7 = 2) :
    voteCollation ID (pre ++ (wireFrame a0 x ++ (wireFrame a1 y ++ (wireFrame a2 z ++ rest)))) =
      some (⟨true, true, true, x, y, z⟩, rest) := by
  simp only [voteCollation, awaitPacket_start ID a0 x pre _ hpre h0.1]
  simp [SecReceiveDataPacket_wireFrame, returnBlock, h0, h1, h2, clearWindow]

/-- Frames with sequence 1, 2 for the local address fill slots 1 and 2 only. -/
theorem voteCollation_12 (ID a1 a2 y z : Nat) (pre rest : List Nat)
    (hpre : ∀ b ∈ pre, b ≠ 0xAA)
    (h1 : a1 >>> 3 = ID ∧ a1 &&& 0x7 = 1) (h2 : a2 >>> 3 = ID ∧ a2 &&& 0x7 = 2) :
    voteCollation ID (pre ++ (wireFrame a1 y ++ (wireFrame a2 z ++ rest))) =
      some (⟨false, true, true, 0, y, z⟩, rest) := by
  simp only [voteCollation, awaitPacket_start ID a1 y pre _ hpre h1.1]
  simp [SecReceiveDataPacket_wireFrame, returnBlock, h1, h2, clearWindow]

/-- Frames with sequence 0, 2 for the local address fill slots 0 and 2 only. -/
theorem voteCollation_02 (ID a0 a2 x z : Nat) (pre rest : List Nat)
    (hpre : ∀ b ∈ pre, b ≠ 0xAA)
    (h0 : a0 >>> 3 = ID ∧ a0 &&& 0x7 = 0) (h2 : a2 >>> 3 = ID ∧ a2 &&& 0x7 = 2) :
    voteCollation ID (pre ++ (wireFrame a0 x ++ (wireFrame a2 z ++ rest))) =
      some (⟨true, false, true, x, 0, z⟩, rest) := by
  simp only [voteCollation, awaitPacket_start ID a0 x pre _ hpre h0.1]
  simp [SecReceiveDataPacket_wireFrame, returnBlock, h0, h2, clearWindow]

/-- Frames with sequence 0, 1 and then a frame of sequence 0 fill slots 0 and 1; the
third frame is read and dropped. -/
theorem voteCollation_010 (ID a0 a1 b0 x y e : Nat) (pre rest : List Nat)
    (hpre : ∀ b ∈ pre, b ≠ 0xAA)
    (h0 : a0 >>> 3 = ID ∧ a0 &&& 0x7 = 0) (h1 : a1 >>> 3 = ID ∧ a1 &&& 0x7 = 1)
    (hb : b0 &&& 0x7 = 0) :
    voteCollation ID (pre ++ (wireFrame a0 x ++ (wireFrame a1 y ++ (wireFrame b0 e ++ rest)))) =
      some (⟨true, true, false, x, y, 0⟩, rest) := by
  simp only [voteCollation, awaitPacket_start ID a0 x pre _ hpre h0.1]
  simp [SecReceiveDataPacket_wireFrame, returnBlock, h0, h1, hb, clearWindow]

/-- A first frame for the local address with a sequence above 2 fills no slot, and no
further frame is read. -/
theorem voteCollation_none (ID a d : Nat) (pre rest : List Nat)
    (hpre : ∀ b ∈ pre, b ≠ 0xAA) (ha : a >>> 3 = ID) (hs : 3 ≤ a &&& 0x7) :
    voteCollation ID (pre ++ (wireFrame a d ++ rest)) = some (clearWindow, rest) := by
  simp only [voteCollation, awaitPacket_start ID a d pre _ hpre ha]
  have n0 : ¬ (returnBlock a d).packet = 0 := by simp only [returnBlock]; omega
  have n1 : ¬ (returnBlock a d).packet = 1 := by simp only [returnBlock]; omega
  have n2 : ¬ (returnBlock a d).packet = 2 := by simp only [returnBlock]; omega
  simp [n0, n1, n2]

set_option maxRecDepth 100000 in
/-- Address and three-bit sequence are recovered from `(address << 3) | sequence`. -/
theorem addrSeq_split : ∀ a < 32, ∀ i < 8,
    ((a <<< 3) ||| i) >>> 3 = a ∧ ((a <<< 3) ||| i) &&& 0x7 = i := by
  decide

/-- C11 (tolerance of one dropped frame): for an address `A` in 0..31, data bytes `d1`,
`d2` and `i` in 0..2, on the bytes of `SecTransmitPacket(A, d1)` with frame `i` removed
followed by the bytes of `SecTransmitPacket(A, d2)`, a first call of
`ReceivePersonalPacket(A)` returns `d1` and a second call, on what the first left
unread, returns `d2`; neither call blocks, and nothing is left unread. -/
theorem C11_one_dropped_frame (A d1 d2 i : Nat) (hA : A < 32) (hd1 : d1 < 256)
    (hd2 : d2 < 256) (hi : i < 3) :
    (∃ r, ReceivePersonalPacket A
        (dropFrame i (SecTransmitPacket A d1 []) ++ SecTransmitPacket A d2 []) = some (d1, r) ∧
      ReceivePersonalPacket A r = some (d2, [])) ∧
    receiveCalls A 2 (dropFrame i (SecTransmitPacket A d1 []) ++ SecTransmitPacket A d2 []) =
      some ([d1, d2], []) := by
  have key : ∃ r, ReceivePersonalPacket A
        (dropFrame i (SecTransmitPacket A d1 []) ++ SecTransmitPacket A d2 []) = some (d1, r) ∧
      ReceivePersonalPacket A r = some (d2, []) := by
    rw [SecTransmitPacket_eq A d1 [] hA hd1, SecTransmitPacket_eq A d2 [] hA hd2]
    have f0 := addrSeq_split A hA 0 (by decide)
    have f1 := addrSeq_split A hA 1 (by decide)
    have f2 := addrSeq_split A hA 2 (by decide)
    generalize (A <<< 3) ||| 0 = a0 at f0 ⊢
    generalize (A <<< 3) ||| 1 = a1 at f1 ⊢
    generalize (A <<< 3) ||| 2 = a2 at f2 ⊢
    have noNoise : ∀ b ∈ ([] : List Nat), b ≠ 0xAA := by simp
    have full := voteCollation_full A a0 a1 a2 d2 d2 d2 [] [] noNoise f0 f1 f2
    have tail12 := voteCollation_12 A a1 a2 d2 d2 [] [] noNoise f1 f2
    simp only [List.nil_append, List.append_nil] at full tail12
    have hi3 : i = 0 ∨ i = 1 ∨ i = 2 := by omega
    rcases hi3 with h | h | h
    · subst h
      have hdrop : dropFrame 0 ([] ++ (wireFrame a0 d1 ++ wireFrame a1 d1 ++ wireFrame a2 d1)) =
          wireFrame a1 d1 ++ wireFrame a2 d1 := rfl
      have first := voteCollation_12 A a1 a2 d1 d1 []
        (wireFrame a0 d2 ++ (wireFrame a1 d2 ++ wireFrame a2 d2)) noNoise f1 f2
      rw [hdrop]
      simp only [List.nil_append, List.append_assoc] at first ⊢
      refine ⟨wireFrame a0 d2 ++ (wireFrame a1 d2 ++ wireFrame a2 d2), ?_, ?_⟩
      · simp only [ReceivePersonalPacket, first]
        simp [resolveVotes]
      · simp [ReceivePersonalPacket, full, resolveVotes]
    · subst h
      have hdrop : dropFrame 1 ([] ++ (wireFrame a0 d1 ++ wireFrame a1 d1 ++ wireFrame a2 d1)) =
          wireFrame a0 d1 ++ wireFrame a2 d1 := rfl
      have first := voteCollation_02 A a0 a2 d1 d1 []
        (wireFrame a0 d2 ++ (wireFrame a1 d2 ++ wireFrame a2 d2)) noNoise f0 f2
      rw [hdrop]
      simp only [List.nil_append, List.append_assoc] at first ⊢
      refine ⟨wireFrame a0 d2 ++ (wireFrame a1 d2 ++ wireFrame a2 d2), ?_, ?_⟩
      · simp only [ReceivePersonalPacket, first]
        simp [resolveVotes]
      · simp [ReceivePersonalPacket, full, resolveVotes]
    · subst h
      have hdrop : dropFrame 2 ([] ++ (wireFrame a0 d1 ++ wireFrame a1 d1 ++ wireFrame a2 d1)) =
          wireFrame a0 d1 ++ wireFrame a1 d1 := rfl
      have first := voteCollation_010 A a0 a1 a0 d1 d1 d2 []
        (wireFrame a1 d2 ++ wireFrame a2 d2) noNoise f0 f1 f0.2
      rw [hdrop]
      simp only [List.nil_append, List.append_assoc] at first ⊢
      refine ⟨wireFrame a1 d2 ++ wireFrame a2 d2, ?_, ?_⟩
      · simp only [ReceivePersonalPacket, first]
        simp [resolveVotes]
      · simp [ReceivePersonalPacket, tail12, resolveVotes]
  refine ⟨key, ?_⟩
  obtain ⟨r, h1, h2⟩ := key
  simp [receiveCalls, h1, h2]

theorem C11_one_dropped_frame_witness :
    (3 < 32 ∧ 42 < 256 ∧ 43 < 256 ∧ 2 < 3) ∧
    receiveCalls 3 2 (dropFrame 2 (SecTransmitPacket 3 42 []) ++ SecTransmitPacket 3 43 []) =
      some ([42, 43], []) :=
  ⟨by decide, (C11_one_dropped_frame 3 42 43 2 (by decide) (by decide) (by decide)
    (by decide)).2⟩

/-! ## The debug transmitter seen by the receiver -/

theorem transmitFrame_append (p d i : Nat) (out : List Nat) :
    transmitFrame p d out i = out ++ transmitFrame p d [] i := by
  simp [transmitFrame, TransmitByte]

theorem SecTransmitPacket_append (ID d : Nat) (out : List Nat) :
    SecTransmitPacket ID d out = out ++ SecTransmitPacket ID d [] := by
  show transmitFrame _ d (transmitFrame _ d (transmitFrame _ d out 0) 1) 2 =
    out ++ transmitFrame _ d (transmitFrame _ d (transmitFrame _ d [] 0) 1) 2
  rw [transmitFrame_append _ d 2 (transmitFrame _ d (transmitFrame _ d out 0) 1),
    transmitFrame_append _ d 1 (transmitFrame _ d out 0), transmitFrame_append _ d 0 out,
    transmitFrame_append _ d 2 (transmitFrame _ d (transmitFrame _ d [] 0) 1),
    transmitFrame_append _ d 1 (transmitFrame _ d [] 0)]
  simp only [List.append_assoc]

theorem debugTransmitRound_eq (chipID d : Nat) (out : List Nat) :
    debugTransmitRound chipID out d = out ++ (SecTransmitPacket chipID d [] ++ [0x0D, 0x0A]) := by
  simp only [debugTransmitRound, TransmitByte]
  rw [SecTransmitPacket_append]
  simp

theorem debugRounds_from (chipID : Nat) (ds : List Nat) : ∀ out : List Nat,
    ds.foldl (debugTransmitRound chipID) out =
      out ++ ds.flatMap (fun d => SecTransmitPacket chipID d [] ++ [0x0D, 0x0A]) := by
  induction ds with
  | nil => intro out; simp
  | cons d t ih =>
    intro out
    rw [List.foldl_cons, ih, debugTransmitRound_eq]
    simp [List.flatMap_cons]

theorem debugStream_eq (chipID : Nat) (ds : List Nat) :
    debugStream chipID ds =
      ds.flatMap (fun d => SecTransmitPacket chipID d [] ++ [0x0D, 0x0A]) := by
  rw [debugStream, debugRounds_from]
  rfl

/-- Successive calls on the debug stream, started after noise `pre` free of the sync
byte, return the transmitted values in order. -/
theorem receiveCalls_rounds (ID : Nat) (hID : ID < 32) (ds : List Nat) :
    (∀ d ∈ ds, d < 256) → ∀ pre : List Nat, (∀ b ∈ pre, b ≠ 0xAA) →
    receiveCalls ID ds.length
        (pre ++ ds.flatMap (fun d => SecTransmitPacket ID d [] ++ [0x0D, 0x0A])) =
      some (ds, if ds = [] then pre else [0x0D, 0x0A]) := by
  induction ds with
  | nil => intro _ pre _; simp [receiveCalls]
  | cons d t ih =>
    intro hds pre hpre
    have hd : d < 256 := hds d (List.mem_cons_self d t)
    have ht : ∀ x ∈ t, x < 256 := fun x hx => hds x (List.mem_cons_of_mem d hx)
    have f0 := addrSeq_split ID hID 0 (by decide)
    have f1 := addrSeq_split ID hID 1 (by decide)
    have f2 := addrSeq_split ID hID 2 (by decide)
    have hcoll := voteCollation_full ID _ _ _ d d d pre
      ([0x0D, 0x0A] ++ t.flatMap (fun d => SecTransmitPacket ID d [] ++ [0x0D, 0x0A]))
      hpre f0 f1 f2
    have hcall : ReceivePersonalPacket ID
        (pre ++ (d :: t).flatMap (fun d => SecTransmitPacket ID d [] ++ [0x0D, 0x0A])) =
        some (d, [0x0D, 0x0A] ++ t.flatMap (fun d => SecTransmitPacket ID d [] ++ [0x0D, 0x0A])) := by
      rw [List.flatMap_cons, SecTransmitPacket_eq ID d [] hID hd]
      simp only [List.nil_append, List.append_assoc] at hcoll ⊢
      simp only [ReceivePersonalPacket, hcoll]
      simp [resolveVotes]
    have hrest := ih ht [0x0D, 0x0A] (by decide)
    simp only [List.length_cons, receiveCalls, hcall, hrest]
    simp

/-- C12 (CR/LF separators are discarded as noise): for an `ID` in 0..31 and data bytes
`d_1..d_n`, the stream of the debug transmitter is, for each `d_k`, the twelve bytes of
`SecTransmitPacket(ID, d_k)` followed by `0x0D`, `0x0A`; on it `n` successive calls of
`ReceivePersonalPacket(ID)` return `d_1, ..., d_n` in order, none of them blocking,
and only the last separator is left unread. -/
theorem C12_crlf_discarded (ID : Nat) (ds : List Nat) (hID : ID < 32)
    (hds : ∀ d ∈ ds, d < 256) :
    debugStream ID ds = ds.flatMap (fun d => SecTransmitPacket ID d [] ++ [0x0D, 0x0A]) ∧
    receiveCalls ID ds.length (debugStream ID ds) =
      some (ds, if ds = [] then [] else [0x0D, 0x0A]) := by
  refine ⟨debugStream_eq ID ds, ?_⟩
  rw [debugStream_eq]
  exact receiveCalls_rounds ID hID ds hds [] (by simp)

theorem C12_crlf_discarded_witness :
    (0 < 32 ∧ ∀ d ∈ [0, 1, 99, 255], d < 256) ∧
    receiveCalls 0 4 (debugStream 0 [0, 1, 99, 255]) = some ([0, 1, 99, 255], [0x0D, 0x0A]) :=
  ⟨by decide, (C12_crlf_discarded 0 [0, 1, 99, 255] (by decide) (by decide)).2⟩

/-! ## The decimal printer -/

theorem growDivisor_mono (value : Nat) : ∀ (n divisor r : Nat),
    growDivisor value n divisor = some r → ∀ m, n ≤ m → growDivisor value m divisor = some r := by
  intro n
  induction n with
  | zero => intro divisor r h; simp [growDivisor] at h
  | succ n ih =>
    intro divisor r h m hm
    obtain ⟨k, rfl⟩ : ∃ k, m = k + 1 := ⟨m - 1, by omega⟩
    simp only [growDivisor] at h ⊢
    by_cases hg : value / divisor > 0
    · rw [if_pos hg] at h ⊢
      exact ih _ r h k (by omega)
    · rw [if_neg hg] at h ⊢
      exact h

theorem digitLoop_mono (value : Nat) : ∀ (n divisor : Nat) (out r : List Nat),
    digitLoop value n divisor out = some r →
    ∀ m, n ≤ m → digitLoop value m divisor out = some r := by
  intro n
  induction n with
  | zero => intro divisor out r h; simp [digitLoop] at h
  | succ n ih =>
    intro divisor out r h m hm
    obtain ⟨k, rfl⟩ : ∃ k, m = k + 1 := ⟨m - 1, by omega⟩
    simp only [digitLoop] at h ⊢
    by_cases hg : divisor ≥ 1
    · rw [if_pos hg] at h ⊢
      exact ih _ _ r h k (by omega)
    · rw [if_neg hg] at h ⊢
      exact h

theorem digitLoop_append (value : Nat) : ∀ (n divisor : Nat) (out r : List Nat),
    digitLoop value n divisor [] = some r → digitLoop value n divisor out = some (out ++ r) := by
  suffices hgen : ∀ (n divisor : Nat) (acc out r : List Nat),
      digitLoop value n divisor acc = some r →
      digitLoop value n divisor (out ++ acc) = some (out ++ r) by
    intro n divisor out r h
    simpa using hgen n divisor [] out r h
  intro n
  induction n with
  | zero => intro divisor acc out r h; simp [digitLoop] at h
  | succ n ih =>
    intro divisor acc out r h
    simp only [digitLoop] at h ⊢
    by_cases hg : divisor ≥ 1
    · rw [if_pos hg] at h ⊢
      have := ih (divisor / 10) _ out r h
      simpa [TransmitByte] using this
    · rw [if_neg hg] at h ⊢
      simp only [Option.some.injEq] at h ⊢
      rw [h]

/-- More iterations allowed and bytes already in the buffer do not change what
`printUInt` writes. -/
theorem printUInt_extend (n value : Nat) (r : List Nat) (h : printUInt n value [] = some r)
    (m : Nat) (hm : n ≤ m) (out : List Nat) : printUInt m value out = some (out ++ r) := by
  unfold printUInt at h ⊢
  cases hg : growDivisor value n 10 with
  | none => simp [hg] at h
  | some divisor =>
    rw [hg] at h
    rw [growDivisor_mono value n 10 divisor hg m hm]
    simp only at h ⊢
    cases hd : digitLoop value n (divisor / 10) [] with
    | none => simp [hd] at h
    | some ds =>
      rw [hd] at h
      have h2 := digitLoop_append value m (divisor / 10) out ds
        (digitLoop_mono value n (divisor / 10) [] ds hd m hm)
      rw [h2]
      simp only [Option.some.injEq] at h ⊢
      rw [← h]
      simp [TransmitByte]

set_option maxRecDepth 1000000 in
/-- Four iterations per loop are enough for every byte value, and the characters written
are the decimal digits of the value. -/
theorem printUInt_bytes : ∀ value < 256,
    printUInt 4 value [] = some ((Nat.toDigits 10 value).map Char.toNat ++ [0x0D, 0x0A]) := by
  decide

set_option maxRecDepth 1000000 in
/-- The first loop of `printUInt` stops at 10, 100 or 1000 for a byte value. -/
theorem growDivisor_bytes : ∀ value < 256,
    growDivisor value 4 10 = some (if value < 10 then 10 else if value < 100 then 100 else 1000) := by
  decide

/-- C13 (decimal printer): for a value in 0..255, `printUInt` terminates (any bound of
at least four iterations per loop is enough) and appends to the transmit buffer exactly
the ASCII codes of the decimal digits of the value, most significant first, without
leading zeros, the single digit zero for value 0, then `0x0D` and `0x0A`; whenever the
body of the first loop runs, `divisor * 10` is below `2^16`, and the loop ends with the
divisor 10, 100 or 1000, so the sixteen-bit divisor never overflows. -/
theorem C13_printUInt (value fuel : Nat) (out : List Nat) (hv : value < 256)
    (hfuel : 4 ≤ fuel) :
    printUInt fuel value out =
      some (out ++ ((Nat.toDigits 10 value).map Char.toNat ++ [0x0D, 0x0A])) ∧
    (∀ divisor, value / divisor > 0 → divisor * 10 < 65536) ∧
    growDivisor value fuel 10 =
      some (if value < 10 then 10 else if value < 100 then 100 else 1000) := by
  refine ⟨printUInt_extend 4 value _ (printUInt_bytes value hv) fuel hfuel out, ?_, ?_⟩
  · intro divisor hpos
    have hle : divisor ≤ value := by
      by_contra hlt
      have : value / divisor = 0 := Nat.div_eq_of_lt (by omega)
      omega
    omega
  · exact growDivisor_mono value 4 10 _ (growDivisor_bytes value hv) fuel hfuel

theorem C13_printUInt_witness :
    (207 < 256 ∧ 4 ≤ 9) ∧
    printUInt 9 207 [0xAA] =
      some ([0xAA] ++ ((Nat.toDigits 10 207).map Char.toNat ++ [0x0D, 0x0A])) :=
  ⟨by decide, (C13_printUInt 207 9 [0xAA] (by decide) (by decide)).1⟩

/-! ## The scanner as a search for the first valid window -/

/-- One test of the loop condition on a full buffer: accept, or shift by one byte. -/
theorem SecReceiveDataPacket_step (b0 b1 b2 b3 : Nat) (t : List Nat) :
    SecReceiveDataPacket (b0 :: b1 :: b2 :: b3 :: t) =
      if b0 ≠ 0xAA ∨ (b1 ^^^ b2) ≠ b3 then SecReceiveDataPacket (b1 :: b2 :: b3 :: t)
      else some (returnBlock b1 b2, t) := by
  cases t with
  | nil =>
    by_cases h : b0 ≠ 0xAA ∨ (b1 ^^^ b2) ≠ b3
    · simp [SecReceiveDataPacket_cons4, shiftLoop, h, SecReceiveDataPacket_short]
    · simp [SecReceiveDataPacket_cons4, shiftLoop, h]
  | cons x r =>
    by_cases h : b0 ≠ 0xAA ∨ (b1 ^^^ b2) ≠ b3
    · simp [SecReceiveDataPacket_cons4, shiftLoop, h]
    · simp [SecReceiveDataPacket_cons4, shiftLoop, h]

theorem validAt_cons_succ (x : Nat) (t : List Nat) (k : Nat) :
    validAt (x :: t) (k + 1) ↔ validAt t k := by
  have e1 : k + 1 + 1 = (k + 1) + 1 := rfl
  have e2 : k + 1 + 2 = (k + 2) + 1 := by omega
  have e3 : k + 1 + 3 = (k + 3) + 1 := by omega
  simp only [validAt, e2, e3, List.getD_cons_succ, List.length_cons]
  constructor
  · rintro ⟨h1, h2, h3⟩
    exact ⟨by omega, h2, h3⟩
  · rintro ⟨h1, h2, h3⟩
    exact ⟨by omega, h2, h3⟩

/-- A head byte that does not start a valid window is shifted out. -/
theorem SecReceiveDataPacket_invalid_head (x : Nat) (t : List Nat)
    (h : ¬ validAt (x :: t) 0) : SecReceiveDataPacket (x :: t) = SecReceiveDataPacket t := by
  match t, h with
  | [], _ => rfl
  | [_], _ => rfl
  | [_, _], _ => rfl
  | b1 :: b2 :: b3 :: r, h =>
    rw [SecReceiveDataPacket_step]
    have hc : x ≠ 0xAA ∨ (b1 ^^^ b2) ≠ b3 := by
      by_contra hn
      simp only [not_or, not_not] at hn
      apply h
      refine ⟨by simp, ?_, ?_⟩
      · simpa using hn.1
      · simpa using hn.2.symm
    rw [if_pos hc]

theorem SecReceiveDataPacket_valid_head (bs : List Nat) (h : validAt bs 0) :
    SecReceiveDataPacket bs =
      some ({ id := bs.getD 1 0 >>> 3, packet := bs.getD 1 0 &&& 0x7, data := bs.getD 2 0 },
        bs.drop 4) := by
  match bs, h with
  | [], h => simp [validAt] at h
  | [_], h => simp [validAt] at h
  | [_, _], h => simp [validAt] at h
  | [_, _, _], h => simp [validAt] at h
  | b0 :: b1 :: b2 :: b3 :: r, h =>
    obtain ⟨_, h0, h3⟩ := h
    simp only [List.getD_cons_zero, List.getD_cons_succ, zero_add] at h0 h3
    rw [SecReceiveDataPacket_step]
    have hc : ¬ (b0 ≠ 0xAA ∨ (b1 ^^^ b2) ≠ b3) := by
      simp only [not_or, not_not]
      exact ⟨h0, h3.symm⟩
    rw [if_neg hc]
    rfl

theorem SecReceiveDataPacket_first_valid (bs : List Nat) : ∀ k : Nat,
    validAt bs k → (∀ j, j < k → ¬ validAt bs j) →
    SecReceiveDataPacket bs =
      some ({ id := bs.getD (k + 1) 0 >>> 3, packet := bs.getD (k + 1) 0 &&& 0x7,
              data := bs.getD (k + 2) 0 }, bs.drop (k + 4)) := by
  induction bs with
  | nil => intro k h; simp [validAt] at h
  | cons x t ih =>
    intro k hk hmin
    cases k with
    | zero => exact SecReceiveDataPacket_valid_head (x :: t) hk
    | succ k =>
      rw [SecReceiveDataPacket_invalid_head x t (hmin 0 (by omega))]
      have hk2 := (validAt_cons_succ x t k).mp hk
      have hmin2 : ∀ j, j < k → ¬ validAt t j := fun j hj hv =>
        hmin (j + 1) (by omega) ((validAt_cons_succ x t j).mpr hv)
      rw [ih k hk2 hmin2]
      have e1 : k + 1 + 1 = (k + 1) + 1 := rfl
      have e2 : k + 1 + 2 = (k + 2) + 1 := by omega
      have e4 : k + 1 + 4 = (k + 4) + 1 := by omega
      simp only [e2, e4, List.getD_cons_succ, List.drop_succ_cons]

theorem SecReceiveDataPacket_no_valid (bs : List Nat) :
    (∀ k, ¬ validAt bs k) → SecReceiveDataPacket bs = none := by
  induction bs with
  | nil => intro _; rfl
  | cons x t ih =>
    intro h
    rw [SecReceiveDataPacket_invalid_head x t (h 0)]
    exact ih (fun k hv => h (k + 1) ((validAt_cons_succ x t k).mpr hv))

/-- C14 (the scanner locks on the first valid window): for every byte list `bs`, if `k`
is the least offset with `k+3 < length bs`, `bs[k] = 0xAA` and
`bs[k+3] = bs[k+1] XOR bs[k+2]`, then `SecReceiveDataPacket` on `bs` returns
`{bs[k+1] >> 3, bs[k+1] & 7, bs[k+2]}` and leaves `bs` without its first `k+4` bytes;
if there is no such offset the scanner does not return on `bs` (it blocks on the
exhausted input). -/
theorem C14_first_valid_window (bs : List Nat) :
    (∀ k : Nat, validAt bs k → (∀ j, j < k → ¬ validAt bs j) →
      SecReceiveDataPacket bs =
        some ({ id := bs.getD (k + 1) 0 >>> 3, packet := bs.getD (k + 1) 0 &&& 0x7,
                data := bs.getD (k + 2) 0 }, bs.drop (k + 4))) ∧
    ((∀ k, ¬ validAt bs k) → SecReceiveDataPacket bs = none) :=
  ⟨SecReceiveDataPacket_first_valid bs, SecReceiveDataPacket_no_valid bs⟩

theorem C14_first_valid_window_witness :
    (validAt [0xAA, 0xAA, 0x18, 42, 50, 7] 1 ∧
      ∀ j, j < 1 → ¬ validAt [0xAA, 0xAA, 0x18, 42, 50, 7] j) ∧
    SecReceiveDataPacket [0xAA, 0xAA, 0x18, 42, 50, 7] =
      some ({ id := 3, packet := 0, data := 42 }, [7]) :=
  ⟨⟨by decide, by decide⟩,
    (C14_first_valid_window [0xAA, 0xAA, 0x18, 42, 50, 7]).1 1 (by decide) (by decide)⟩

/-- C15 (a false lock exists): with the single noise byte `0xAA` in front of the
frame written by the encoder for address 3 and data `0xB2 = 0xAA XOR 0x18`, the scanner
accepts the window `0xAA, 0xAA, 0x18, 0xB2` that straddles noise and frame and returns
`{21, 2, 0x18}`, which is not the decoding `{3, 0, 0xB2}` of the frame; the same happens
for every addrSeq byte `a` when the data is `0xAA XOR a`. -/
theorem C15_false_lock_exists :
    (∃ address data : Nat, address < 32 ∧ data < 256 ∧
      ∃ (pre : List Nat) (blk : Block) (rest : List Nat),
        SecReceiveDataPacket ((SecTransmitPacket address data []).take 4) =
          some ({ id := address, packet := 0, data := data }, []) ∧
        SecReceiveDataPacket (pre ++ (SecTransmitPacket address data []).take 4) =
          some (blk, rest) ∧
        blk ≠ { id := address, packet := 0, data := data } ∧ rest ≠ []) ∧
    (∀ (a : Nat) (rest : List Nat),
      SecReceiveDataPacket ([0xAA] ++ wireFrame a (0xAA ^^^ a) ++ rest) =
        some ({ id := 21, packet := 2, data := a }, (a ^^^ (0xAA ^^^ a)) :: rest)) := by
  constructor
  · exact ⟨3, 0xB2, by decide, by decide, [0xAA], ⟨21, 2, 0x18⟩, [0xAA],
      by decide, by decide, by decide, by decide⟩
  · intro a rest
    exact SecReceiveDataPacket_frame 0xAA a ((a ^^^ (0xAA ^^^ a)) :: rest)

/-! ## What the checksum detects -/

theorem xor_masks (a d m1 m2 m3 : Nat) :
    (a ^^^ m1) ^^^ (d ^^^ m2) = (a ^^^ d) ^^^ m3 ↔ m1 ^^^ m2 ^^^ m3 = 0 := by
  have h : (a ^^^ m1) ^^^ (d ^^^ m2) = (a ^^^ d) ^^^ (m1 ^^^ m2) := by
    rw [Nat.xor_assoc, Nat.xor_assoc, ← Nat.xor_assoc m1 d m2, Nat.xor_comm m1 d,
      Nat.xor_assoc d m1 m2]
  rw [h, Nat.xor_right_inj, Nat.xor_eq_zero]

/-- A buffer is accepted on the spot, leaving exactly `rest`, iff it passes the test of
line 82. -/
theorem SecReceiveDataPacket_accept_iff (b0 b1 b2 b3 : Nat) (rest : List Nat) :
    SecReceiveDataPacket ([b0, b1, b2, b3] ++ rest) = some (returnBlock b1 b2, rest) ↔
      (b0 = 0xAA ∧ (b1 ^^^ b2) = b3) := by
  show SecReceiveDataPacket (b0 :: b1 :: b2 :: b3 :: rest) = _ ↔ _
  rw [SecReceiveDataPacket_step]
  by_cases hc : b0 ≠ 0xAA ∨ (b1 ^^^ b2) ≠ b3
  · rw [if_pos hc]
    constructor
    · intro h
      have hl := SecReceiveDataPacket_length _ _ _ h
      simp only [List.length_cons] at hl
      omega
    · rintro ⟨h0, h3⟩
      rcases hc with hc | hc
      · exact absurd h0 hc
      · exact absurd h3 hc
  · rw [if_neg hc]
    simp only [not_or, not_not] at hc
    simp [hc]

/-- C16 (detection power of the checksum): for a valid frame `[0xAA, a, d, a XOR d]` and
masks `m1`, `m2`, `m3`, the corrupted frame `[0xAA, a XOR m1, d XOR m2, (a XOR d) XOR m3]`
is accepted by the scanner as it stands iff `m1 XOR m2 XOR m3 = 0`.  A non-zero mask on
a single one of the three bytes is rejected; the same mask on two of the bytes is
accepted. -/
theorem C16_checksum_detection (a d m1 m2 m3 : Nat) (rest : List Nat) :
    (SecReceiveDataPacket ([0xAA, a ^^^ m1, d ^^^ m2, (a ^^^ d) ^^^ m3] ++ rest) =
        some (returnBlock (a ^^^ m1) (d ^^^ m2), rest) ↔ m1 ^^^ m2 ^^^ m3 = 0) ∧
    (∀ m, m ≠ 0 →
      SecReceiveDataPacket ([0xAA, a ^^^ m, d ^^^ 0, (a ^^^ d) ^^^ 0] ++ rest) ≠
        some (returnBlock (a ^^^ m) (d ^^^ 0), rest) ∧
      SecReceiveDataPacket ([0xAA, a ^^^ 0, d ^^^ m, (a ^^^ d) ^^^ 0] ++ rest) ≠
        some (returnBlock (a ^^^ 0) (d ^^^ m), rest) ∧
      SecReceiveDataPacket ([0xAA, a ^^^ 0, d ^^^ 0, (a ^^^ d) ^^^ m] ++ rest) ≠
        some (returnBlock (a ^^^ 0) (d ^^^ 0), rest)) ∧
    (∀ m,
      SecReceiveDataPacket ([0xAA, a ^^^ m, d ^^^ m, (a ^^^ d) ^^^ 0] ++ rest) =
        some (returnBlock (a ^^^ m) (d ^^^ m), rest) ∧
      SecReceiveDataPacket ([0xAA, a ^^^ m, d ^^^ 0, (a ^^^ d) ^^^ m] ++ rest) =
        some (returnBlock (a ^^^ m) (d ^^^ 0), rest) ∧
      SecReceiveDataPacket ([0xAA, a ^^^ 0, d ^^^ m, (a ^^^ d) ^^^ m] ++ rest) =
        some (returnBlock (a ^^^ 0) (d ^^^ m), rest)) := by
  have main : ∀ m1 m2 m3 : Nat,
      SecReceiveDataPacket ([0xAA, a ^^^ m1, d ^^^ m2, (a ^^^ d) ^^^ m3] ++ rest) =
        some (returnBlock (a ^^^ m1) (d ^^^ m2), rest) ↔ m1 ^^^ m2 ^^^ m3 = 0 := by
    intro m1 m2 m3
    rw [SecReceiveDataPacket_accept_iff, xor_masks]
    simp
  refine ⟨main m1 m2 m3, ?_, ?_⟩
  · intro m hm
    refine ⟨?_, ?_, ?_⟩
    · rw [Ne, main m 0 0]
      simpa using hm
    · rw [Ne, main 0 m 0]
      simpa using hm
    · rw [Ne, main 0 0 m]
      simpa using hm
  · intro m
    refine ⟨?_, ?_, ?_⟩
    · rw [main m m 0]
      simp
    · rw [main m 0 m]
      simp
    · rw [main 0 m m]
      simp

theorem C16_checksum_detection_witness :
    (0x20 ≠ 0) ∧
    SecReceiveDataPacket ([0xAA, 0x18 ^^^ 0, 42 ^^^ 0x20, (0x18 ^^^ 42) ^^^ 0] ++ [1]) ≠
      some (returnBlock (0x18 ^^^ 0) (42 ^^^ 0x20), [1]) :=
  ⟨by decide, ((C16_checksum_detection 0x18 42 0 0 0 [1]).2.1 0x20 (by decide)).2.1⟩

/-- C18 (collation of a full window): for an `ID` in 0..31, data `x`, `y`, `z` and any
following bytes `rest`, `ReceivePersonalPacket(ID)` on the valid frames `(ID, 0, x)`,
`(ID, 1, y)`, `(ID, 2, z)` followed by `rest` fills slots 0, 1, 2 with `x`, `y`, `z`,
leaves exactly `rest` unread (twelve bytes consumed) and returns `x` if `x = y`, else `y`
if `y = z`, else `x`.  The first frame of one transmission (data `a`) followed by the
second and third frames of another (data `b ≠ a`) is collated as one block and resolves
to `b`. -/
theorem C18_full_window (ID x y z a b : Nat) (rest : List Nat) (hID : ID < 32) :
    voteCollation ID (wireFrame ((ID <<< 3) ||| 0) x ++ wireFrame ((ID <<< 3) ||| 1) y ++
        wireFrame ((ID <<< 3) ||| 2) z ++ rest) =
      some (⟨true, true, true, x, y, z⟩, rest) ∧
    ReceivePersonalPacket ID (wireFrame ((ID <<< 3) ||| 0) x ++ wireFrame ((ID <<< 3) ||| 1) y ++
        wireFrame ((ID <<< 3) ||| 2) z ++ rest) =
      some (if x = y then x else if y = z then y else x, rest) ∧
    (a ≠ b →
      ReceivePersonalPacket ID (wireFrame ((ID <<< 3) ||| 0) a ++
        wireFrame ((ID <<< 3) ||| 1) b ++ wireFrame ((ID <<< 3) ||| 2) b ++ rest) =
      some (b, rest)) := by
  have f0 := addrSeq_split ID hID 0 (by decide)
  have f1 := addrSeq_split ID hID 1 (by decide)
  have f2 := addrSeq_split ID hID 2 (by decide)
  have noNoise : ∀ b ∈ ([] : List Nat), b ≠ 0xAA := by simp
  have coll : ∀ u v w : Nat,
      voteCollation ID (wireFrame ((ID <<< 3) ||| 0) u ++ wireFrame ((ID <<< 3) ||| 1) v ++
        wireFrame ((ID <<< 3) ||| 2) w ++ rest) = some (⟨true, true, true, u, v, w⟩, rest) := by
    intro u v w
    have h := voteCollation_full ID _ _ _ u v w [] rest noNoise f0 f1 f2
    simpa only [List.nil_append, List.append_assoc] using h
  refine ⟨coll x y z, ?_, ?_⟩
  · simp only [ReceivePersonalPacket, coll x y z]
    simp [resolveVotes]
  · intro hab
    simp only [ReceivePersonalPacket, coll a b b]
    simp [resolveVotes, hab]

theorem C18_full_window_witness :
    (3 < 32 ∧ 7 ≠ 9) ∧
    ReceivePersonalPacket 3 (wireFrame ((3 <<< 3) ||| 0) 7 ++ wireFrame ((3 <<< 3) ||| 1) 9 ++
        wireFrame ((3 <<< 3) ||| 2) 9 ++ [0xAA]) = some (9, [0xAA]) :=
  ⟨by decide, (C18_full_window 3 1 2 3 7 9 [0xAA] (by decide)).2.2 (by decide)⟩

/-- The eight-bit shift keeps only the low five bits of the ID. -/
theorem ID_PacketByte_mod (ID : Nat) : ID_PacketByte ID = ID_PacketByte (ID % 32) := by
  simp only [ID_PacketByte, Nat.or_zero, Nat.shiftLeft_eq]
  omega

/-- C19 (address aliasing for out-of-range IDs): for every `ID`, in particular every
eight-bit `ID` in 0..255 (32..255 included), and a data byte `d`, the bytes written by `SecTransmitPacket(ID, d)` are those written for `ID mod 32`:
three valid frames with addrSeq `((ID mod 32) << 3) | i`, which decode to address
`ID mod 32` and sequence `i`; `ReceivePersonalPacket(ID mod 32)` on them returns `d`. -/
theorem C19_address_aliasing (ID d : Nat) (rest : List Nat) (hd : d < 256) :
    ID % 32 < 32 ∧ (ID <<< 3) % 256 = (ID % 32) <<< 3 ∧
    SecTransmitPacket ID d [] = SecTransmitPacket (ID % 32) d [] ∧
    SecTransmitPacket ID d [] =
      wireFrame (((ID % 32) <<< 3) ||| 0) d ++ wireFrame (((ID % 32) <<< 3) ||| 1) d ++
        wireFrame (((ID % 32) <<< 3) ||| 2) d ∧
    (∀ i < 3, ∀ tail : List Nat,
      SecReceiveDataPacket (wireFrame (((ID % 32) <<< 3) ||| i) d ++ tail) =
        some ({ id := ID % 32, packet := i, data := d }, tail)) ∧
    ReceivePersonalPacket (ID % 32) (SecTransmitPacket ID d [] ++ rest) = some (d, rest) := by
  have hm : ID % 32 < 32 := Nat.mod_lt _ (by decide)
  have hsame : SecTransmitPacket ID d [] = SecTransmitPacket (ID % 32) d [] := by
    simp only [SecTransmitPacket, ID_PacketByte_mod ID]
  have hshift : (ID <<< 3) % 256 = (ID % 32) <<< 3 := by
    simp only [Nat.shiftLeft_eq]
    omega
  have hform := SecTransmitPacket_eq (ID % 32) d [] hm hd
  rw [List.nil_append] at hform
  refine ⟨hm, hshift, hsame, hsame.trans hform, ?_, ?_⟩
  · intro i hi tail
    rw [SecReceiveDataPacket_wireFrame, returnBlock_enc (ID % 32) i d hm hi]
  · rw [hsame, hform]
    have f0 := addrSeq_split (ID % 32) hm 0 (by decide)
    have f1 := addrSeq_split (ID % 32) hm 1 (by decide)
    have f2 := addrSeq_split (ID % 32) hm 2 (by decide)
    have h := voteCollation_full (ID % 32) _ _ _ d d d [] rest (by simp) f0 f1 f2
    simp only [List.nil_append, List.append_assoc] at h ⊢
    simp only [ReceivePersonalPacket, h]
    simp [resolveVotes]

theorem C19_address_aliasing_witness :
    42 < 256 ∧
    ReceivePersonalPacket (227 % 32) (SecTransmitPacket 227 42 [] ++ [5]) = some (42, [5]) :=
  ⟨by decide, (C19_address_aliasing 227 42 [5] (by decide)).2.2.2.2.2⟩

/-- C20 (out-of-range sequence index): for an `ID` in 0..31, a sequence value `s` in 3..7,
any data `d` and any following bytes `rest`, `ReceivePersonalPacket(ID)` on the valid
frame `[0xAA, (ID<<3)|s, d, ((ID<<3)|s) XOR d]` followed by `rest` fills no vote slot,
leaves exactly `rest` unread (four bytes consumed) and returns 0, the cleared
`dataVotes[2]`, whatever `d` is. -/
theorem C20_sequence_out_of_range (ID s d : Nat) (rest : List Nat) (hID : ID < 32)
    (hs3 : 3 ≤ s) (hs7 : s ≤ 7) :
    voteCollation ID ([0xAA, (ID <<< 3) ||| s, d, ((ID <<< 3) ||| s) ^^^ d] ++ rest) =
      some (clearWindow, rest) ∧
    (clearWindow.didVote0 = false ∧ clearWindow.didVote1 = false ∧
      clearWindow.didVote2 = false) ∧
    ReceivePersonalPacket ID ([0xAA, (ID <<< 3) ||| s, d, ((ID <<< 3) ||| s) ^^^ d] ++ rest) =
      some (0, rest) ∧
    ([0xAA, (ID <<< 3) ||| s, d, ((ID <<< 3) ||| s) ^^^ d] ++ rest).length - rest.length = 4 := by
  have f := addrSeq_split ID hID s (by omega)
  have h := voteCollation_none ID ((ID <<< 3) ||| s) d [] rest (by simp) f.1
    (by rw [f.2]; exact hs3)
  simp only [List.nil_append] at h
  have h2 : voteCollation ID ([0xAA, (ID <<< 3) ||| s, d, ((ID <<< 3) ||| s) ^^^ d] ++ rest) =
      some (clearWindow, rest) := h
  refine ⟨h2, ⟨rfl, rfl, rfl⟩, ?_, ?_⟩
  · simp only [ReceivePersonalPacket, h2]
    rfl
  · simp only [List.length_append, List.length_cons, List.length_nil]
    omega

theorem C20_sequence_out_of_range_witness :
    (3 < 32 ∧ 3 ≤ 5 ∧ 5 ≤ 7) ∧
    ReceivePersonalPacket 3 ([0xAA, (3 <<< 3) ||| 5, 99, ((3 <<< 3) ||| 5) ^^^ 99] ++ [1, 2]) =
      some (0, [1, 2]) :=
  ⟨by decide,
    (C20_sequence_out_of_range 3 5 99 [1, 2] (by decide) (by decide) (by decide)).2.2.1⟩

/-! ## Which slot the first addressed packet fills -/

/-- The packet that ends the address-filter loop carries the local address. -/
theorem awaitPacket_id (ID : Nat) : ∀ (n : Nat) (s : List Nat) (blk : Block) (rest : List Nat),
    awaitPacket ID n s = some (blk, rest) → blk.id = ID := by
  intro n
  induction n with
  | zero => intro s blk rest h; simp [awaitPacket] at h
  | succ n ih =>
    intro s blk rest h
    simp only [awaitPacket] at h
    cases hr : SecReceiveDataPacket s with
    | none => simp [hr] at h
    | some p =>
      obtain ⟨b, r⟩ := p
      rw [hr] at h
      by_cases hid : b.id ≠ ID
      · simp only [hid, if_true, ne_eq, not_false_eq_true] at h
        exact ih r blk rest h
      · simp only [hid, if_false, Option.some.injEq, Prod.mk.injEq] at h
        rw [← h.1]
        exact not_not.mp hid

/-- When the collation ends, the first addressed packet `p0` has filled the slot of its
sequence if that sequence is 0, 1 or 2, and no slot at all is filled if it is 3 or more. -/
theorem voteCollation_first_packet (ID : Nat) (s : List Nat) (w : VoteWindow)
    (rest : List Nat) (h : voteCollation ID s = some (w, rest)) :
    ∃ (p0 : Block) (s0 : List Nat), awaitPacket ID s.length s = some (p0, s0) ∧
      (p0.packet = 0 → w.didVote0 = true) ∧ (p0.packet = 1 → w.didVote1 = true) ∧
      (p0.packet = 2 → w.didVote2 = true) ∧ (3 ≤ p0.packet → w = clearWindow) := by
  unfold voteCollation at h
  cases ha : awaitPacket ID s.length s with
  | none => simp [ha] at h
  | some p =>
    obtain ⟨p0, s0⟩ := p
    have hid := awaitPacket_id ID _ _ _ _ ha
    rw [ha] at h
    refine ⟨p0, s0, rfl, ?_⟩
    simp only at h
    by_cases c0 : p0.packet = 0
    · simp only [c0, if_true] at h
      cases h1 : SecReceiveDataPacket s0 with
      | none => simp [h1] at h
      | some q =>
        obtain ⟨r1, t1⟩ := q
        simp only [h1] at h
        by_cases c1 : r1.packet = 1 ∧ r1.id = ID
        · simp only [c1, and_self, if_true] at h
          cases h2 : SecReceiveDataPacket t1 with
          | none => simp [h2] at h
          | some q2 =>
            obtain ⟨r2, t2⟩ := q2
            simp only [h2] at h
            split at h <;>
              · simp only [Option.some.injEq, Prod.mk.injEq] at h
                rw [← h.1]
                simp [c0]
        · simp only [c1, if_false] at h
          split at h <;>
            · simp only [Option.some.injEq, Prod.mk.injEq] at h
              rw [← h.1]
              simp [c0]
    · simp only [c0, if_false] at h
      by_cases c1 : p0.packet = 1
      · simp only [c1, hid, and_self, if_true] at h
        cases h2 : SecReceiveDataPacket s0 with
        | none => simp [h2] at h
        | some q2 =>
          obtain ⟨r2, t2⟩ := q2
          simp only [h2] at h
          split at h <;>
            · simp only [Option.some.injEq, Prod.mk.injEq] at h
              rw [← h.1]
              simp [c1]
      · simp only [c1, false_and, if_false] at h
        by_cases c2 : p0.packet = 2
        · simp only [c2, hid, and_self, if_true, Option.some.injEq, Prod.mk.injEq] at h
          rw [← h.1]
          simp [c2]
        · simp only [c2, false_and, if_false, Option.some.injEq, Prod.mk.injEq] at h
          rw [← h.1]
          simp [c0, c1, c2]

/-- C17 (the vote window at resolution), evaluated where it fails: on the valid frame
`[0xAA, 0x1D, 9, 0x14]`, addressed to device 3 with sequence 5, `ReceivePersonalPacket(3)`
reaches its resolution step with `didVote[0]`, `didVote[1]` and `didVote[2]` all false
and returns the cleared `dataVotes[2] = 0`, not the transmitted 9. -/
theorem C17_empty_window_at_resolution :
    SecReceiveDataPacket [0xAA, 0x1D, 9, 0x14] = some ({ id := 3, packet := 5, data := 9 }, []) ∧
    voteCollation 3 [0xAA, 0x1D, 9, 0x14] =
      some ({ didVote0 := false, didVote1 := false, didVote2 := false,
              dataVotes0 := 0, dataVotes1 := 0, dataVotes2 := 0 }, []) ∧
    ReceivePersonalPacket 3 [0xAA, 0x1D, 9, 0x14] = some (0, []) := by
  decide

end RFTransceiver
